import Mathlib

/- Verification of pbs.py (the pbs command-invocation engine).

   This file gives a shallow embedding of the parts of pbs.py that the
   frozen claims talk about: the argument compiler (Command._format_arg,
   Command._compile_args, including the shlex re-splitting), call-option
   extraction (Command._extract_call_args), baking (Command.bake), the
   process-wide prefix stack (Command.__enter__ / __exit__ / __call__),
   exit-code error kinds (get_rc_exc and its cache), and the wait logic on
   RunningCommand.  The process backend (OProc) is imported by pbs.py from
   an external module and is modelled from the spec at its stated boundary.
-/

set_option maxHeartbeats 1000000

/-- A single-quote character as a string, used when rendering Python repr
output. -/
def squote : String := String.singleton (Char.ofNat 39)

/-- Python values appearing as arguments and option values in pbs calls.
`vCallable` and `vStream` stand for callable objects and for objects with a
write method, respectively; the other constructors are literal values.
Python tuples are treated identically to lists by the source
(`isinstance(arg, (list, tuple))`), so one sequence constructor `vList`
models both. -/
inductive PyVal where
  | vNone : PyVal
  | vBool : Bool → PyVal
  | vInt : Int → PyVal
  | vStr : String → PyVal
  | vList : List PyVal → PyVal
  | vCallable : String → PyVal
  | vStream : String → PyVal

mutual

/-- Boolean structural equality on Python values. -/
def pyValBeq : PyVal → PyVal → Bool
  | .vNone, .vNone => true
  | .vBool a, .vBool b => a == b
  | .vInt a, .vInt b => a == b
  | .vStr a, .vStr b => a == b
  | .vList a, .vList b => pyValListBeq a b
  | .vCallable a, .vCallable b => a == b
  | .vStream a, .vStream b => a == b
  | _, _ => false

/-- Boolean structural equality on lists of Python values. -/
def pyValListBeq : List PyVal → List PyVal → Bool
  | [], [] => true
  | x :: xs, y :: ys => pyValBeq x y && pyValListBeq xs ys
  | _, _ => false

end

mutual

/-- `pyValBeq` decides equality. -/
theorem pyValBeq_iff : ∀ a b : PyVal, pyValBeq a b = true ↔ a = b
  | .vNone, b => by cases b <;> simp [pyValBeq]
  | .vBool a, b => by cases b <;> simp [pyValBeq]
  | .vInt a, b => by cases b <;> simp [pyValBeq]
  | .vStr a, b => by cases b <;> simp [pyValBeq]
  | .vList a, b => by
    cases b <;> simp [pyValBeq]
    exact pyValListBeq_iff a _
  | .vCallable a, b => by cases b <;> simp [pyValBeq]
  | .vStream a, b => by cases b <;> simp [pyValBeq]

/-- `pyValListBeq` decides equality. -/
theorem pyValListBeq_iff : ∀ a b : List PyVal, pyValListBeq a b = true ↔ a = b
  | [], b => by cases b <;> simp [pyValListBeq]
  | x :: xs, b => by
    cases b with
    | nil => simp [pyValListBeq]
    | cons y ys =>
      simp only [pyValListBeq, Bool.and_eq_true, List.cons.injEq]
      exact and_congr (pyValBeq_iff x y) (pyValListBeq_iff xs ys)

end

instance : DecidableEq PyVal := fun a b =>
  decidable_of_iff (pyValBeq a b = true) (pyValBeq_iff a b)

mutual

/-- Python repr of a value (as used by str() on containers).  String
escaping corner cases inside repr are not modelled; simple values render
as Python renders them. -/
def pyRepr : PyVal → String
  | .vNone => "None"
  | .vBool true => "True"
  | .vBool false => "False"
  | .vInt n => toString n
  | .vStr s => squote ++ s ++ squote
  | .vList xs => "[" ++ String.intercalate ", " (pyReprList xs) ++ "]"
  | .vCallable n => "<function " ++ n ++ ">"
  | .vStream n => "<stream " ++ n ++ ">"

/-- repr of each element of a list, in order. -/
def pyReprList : List PyVal → List String
  | [] => []
  | x :: xs => pyRepr x :: pyReprList xs

end

/-- Python str() of a value: a string renders as itself, containers and
other values render via repr. -/
def pyStr : PyVal → String
  | .vStr s => s
  | v => pyRepr v

/-- Python truthiness of a value. -/
def pyTruthy : PyVal → Bool
  | .vNone => false
  | .vBool b => b
  | .vInt n => n != 0
  | .vStr s => s != ""
  | .vList xs => !xs.isEmpty
  | .vCallable _ => true
  | .vStream _ => true

/-- Python callable() on a value. -/
def pyCallable : PyVal → Bool
  | .vCallable _ => true
  | _ => false

/-- Python `v is True`: identity with the boolean True singleton. -/
def pyIsTrue : PyVal → Bool
  | .vBool true => true
  | _ => false

/-- Association-list lookup, first match wins (Python dict lookup). -/
def alookup {α β : Type} [DecidableEq α] (k : α) : List (α × β) → Option β
  | [] => none
  | p :: rest => if p.1 = k then some p.2 else alookup k rest

/-- Whether a key is present in an association list (Python `key in d`). -/
def containsKey {α β : Type} [DecidableEq α] (d : List (α × β)) (k : α) : Bool :=
  (alookup k d).isSome

/-- Python `d[k] = v` for the dictionaries built by the extraction loop:
each key is assigned at most once there, so assignment is an append. -/
def dictInsert {α β : Type} (d : List (α × β)) (k : α) (v : β) : List (α × β) :=
  d ++ [(k, v)]

/-- Python `del d[k]`: remove the entries with the given key. -/
def eraseKey {α β : Type} [DecidableEq α] (k : α) : List (α × β) → List (α × β)
  | [] => []
  | p :: rest => if p.1 = k then eraseKey k rest else p :: eraseKey k rest

/-- Keyword-argument and option bags: ordered string-keyed dictionaries. -/
abbrev Dict := List (String × PyVal)

/-- Double-quote character. -/
def dqChar : Char := '"'

/-- Backslash character. -/
def bslChar : Char := '\\'

/-- Single-quote character. -/
def sqChar : Char := Char.ofNat 39

/-- shlex whitespace characters. -/
def isShlexWs (c : Char) : Bool :=
  c == ' ' || c == '\t' || c == '\r' || c == '\n'

/-- Lexer mode of the POSIX shlex state machine used by shlex.split. -/
inductive ShlexMode where
  | plain : ShlexMode
  | squo : ShlexMode
  | dquo : ShlexMode
  | escPlain : ShlexMode
  | escDquo : ShlexMode
deriving DecidableEq

/-- One-character-at-a-time POSIX shlex tokenizer (the behaviour of
shlex.split): whitespace separates tokens, single quotes are literal
runs, double quotes are runs where a backslash escapes only a double
quote or a backslash, and a backslash outside quotes escapes the next
character.  An unterminated quote is the ValueError "No closing
quotation"; a trailing escape is the ValueError "No escaped character". -/
def shlexGo : List Char → ShlexMode → List String → String → Bool →
    Except String (List String)
  | [], .plain, acc, cur, hasCur =>
    .ok (acc ++ if hasCur then [cur] else [])
  | [], .escPlain, _, _, _ => .error "No escaped character"
  | [], .escDquo, _, _, _ => .error "No escaped character"
  | [], .squo, _, _, _ => .error "No closing quotation"
  | [], .dquo, _, _, _ => .error "No closing quotation"
  | c :: rest, .plain, acc, cur, hasCur =>
    if isShlexWs c then
      shlexGo rest .plain (acc ++ if hasCur then [cur] else []) "" false
    else if c = sqChar then shlexGo rest .squo acc cur true
    else if c = dqChar then shlexGo rest .dquo acc cur true
    else if c = bslChar then shlexGo rest .escPlain acc cur true
    else shlexGo rest .plain acc (cur.push c) true
  | c :: rest, .squo, acc, cur, hasCur =>
    if c = sqChar then shlexGo rest .plain acc cur hasCur
    else shlexGo rest .squo acc (cur.push c) hasCur
  | c :: rest, .dquo, acc, cur, hasCur =>
    if c = dqChar then shlexGo rest .plain acc cur hasCur
    else if c = bslChar then shlexGo rest .escDquo acc cur hasCur
    else shlexGo rest .dquo acc (cur.push c) hasCur
  | c :: rest, .escPlain, acc, cur, hasCur =>
    shlexGo rest .plain acc (cur.push c) hasCur
  | c :: rest, .escDquo, acc, cur, hasCur =>
    if c = dqChar || c = bslChar then shlexGo rest .dquo acc (cur.push c) hasCur
    else shlexGo rest .dquo acc ((cur.push bslChar).push c) hasCur

/-- shlex.split on a string (POSIX mode, as pbs calls it). -/
def shlexSplit (s : String) : Except String (List String) :=
  shlexGo s.data .plain [] "" false

/-- `Command._format_arg`: stringify the value (str on Python 3,
unicode+encode on Python 2 — the same text either way here) and wrap it in
double quotes. -/
def formatArg (arg : PyVal) : String := "\"" ++ pyStr arg ++ "\""

/-- The body of the positional loop of `Command._compile_args` (lines
380-383): a list or tuple contributes one formatted fragment per element;
anything else is formatted as one fragment. -/
def positionalFragments (arg : PyVal) : List String :=
  match arg with
  | .vList xs => xs.map formatArg
  | _ => [formatArg arg]

/-- The body of the keyword loop of `Command._compile_args` (lines
386-399): a one-character name becomes a short flag, `-k` when the value
is the True singleton and the single fragment `-k "<value>"` otherwise; a
longer name has underscores replaced by hyphens and becomes `--name` when
True, `--name="<value>"` otherwise. -/
def namedFragment (k : String) (v : PyVal) : String :=
  if k.length = 1 then
    (if pyIsTrue v then "-" ++ k
     else "-" ++ k ++ " " ++ formatArg v)
  else
    (let k2 := k.replace "_" "-"
     if pyIsTrue v then "--" ++ k2
     else "--" ++ k2 ++ "=" ++ formatArg v)

/-- The fragment-building loops of `Command._compile_args`: aggregate the
positional arguments, then the keyword arguments, into processed_args. -/
def compileFragments (args : List PyVal) (kwargs : Dict) : List String :=
  let pos := args.foldl (fun acc arg => acc ++ positionalFragments arg) []
  kwargs.foldl (fun acc kv => acc ++ [namedFragment kv.1 kv.2]) pos

/-- The long ValueError message `Command._compile_args` raises when shlex
reports an unterminated quote. -/
def noClosingQuoteMsg : String :=
  "No closing quotation.  If you" ++ squote ++
  "re trying to escape double quotes, please note that you need to escape the escape:\n\n    # incorrect\n    print pbs.echo(" ++
  squote ++ "test print double quote: \"" ++ squote ++ ")\n    print pbs.echo(" ++
  squote ++ "test print double quote: \\\"" ++ squote ++
  ")\n    print pbs.echo(\"test print double quote: \\\"\")\n    print pbs.echo(\"test print double quote: \\\\\"\")\n\n    # correct\n    print pbs.echo(" ++
  squote ++ "test print double quote: \\\\\"" ++ squote ++
  ")\n    print pbs.echo(\"test print double quote: \\\\\\\"\")\n"

/-- `Command._compile_args`: build the fragments, join them with spaces and
re-split with shlex.  On the ValueError "No closing quotation" the source
raises the long explanatory message; on any other ValueError the except
clause matches, the if does not fire, nothing is re-raised, and the
function falls through and returns the still-unsplit fragment list — that
behaviour is kept faithfully. -/
def compileArgs (args : List PyVal) (kwargs : Dict) : Except String (List String) :=
  let processed := compileFragments args kwargs
  match shlexSplit (String.intercalate " " processed) with
  | .ok toks => .ok toks
  | .error e =>
    if e = "No closing quotation" then .error noClosingQuoteMsg
    else .ok processed

/-- `Command._call_args`: the recognized call options and their defaults,
in the order of the source dict literal. -/
def callArgDefaults : Dict :=
  [("fg", .vBool false),
   ("bg", .vBool false),
   ("with", .vBool false),
   ("in", .vNone),
   ("out", .vNone),
   ("err", .vNone),
   ("err_to_out", .vNone),
   ("bufsize", .vInt 1),
   ("piped", .vNone),
   ("for", .vNone)]

/-- `Command._incompatible_call_args`: pairs of options that cannot be used
together, with the explanation the source attaches to each pair. -/
def incompatList : List (String × String × String) :=
  [("fg", "bg", "Command can" ++ squote ++ "t be run in the foreground and background"),
   ("err", "err_to_out", "Stderr is already being redirected"),
   ("piped", "for", "You cannot iterate when this command is being piped")]

/-- The TypeError message `_extract_call_args` raises for an incompatible
pair: `"Invalid special arguments %r: %s" % (args, error)` where args is
the two-element list of option names. -/
def incompatMsg (a b err : String) : String :=
  "Invalid special arguments [" ++ squote ++ a ++ squote ++ ", " ++
  squote ++ b ++ squote ++ "]: " ++ err

/-- The concrete message raised when both fg and bg are present. -/
def fgBgMsg : String :=
  incompatMsg "fg" "bg"
    ("Command can" ++ squote ++ "t be run in the foreground and background")

/-- One iteration of the extraction loop in `Command._extract_call_args`:
for a recognized option name parg, if the underscored key is in the kwargs
bag, move its value into call_args and delete the key from the bag;
otherwise, if the name is in to_override, take the value from there. -/
def extractStep (ov : Dict) (acc : Dict × Dict) (pd : String × PyVal) : Dict × Dict :=
  let key := "_" ++ pd.1
  match alookup key acc.2 with
  | some v => (dictInsert acc.1 pd.1 v, eraseKey key acc.2)
  | none =>
    match alookup pd.1 ov with
    | some v => (dictInsert acc.1 pd.1 v, acc.2)
    | none => acc

/-- `Command._extract_call_args(kwargs, to_override)`: work on a copy of
kwargs, partition it against the recognized option names, then check every
incompatible pair — if both names of a pair ended up in call_args, raise
the TypeError naming the pair; otherwise return the call_args and the
remaining kwargs. -/
def extractCallArgs (kwargs ov : Dict) : Except String (Dict × Dict) :=
  let p := callArgDefaults.foldl (extractStep ov) ([], kwargs)
  match incompatList.find? (fun t => containsKey p.1 t.1 && containsKey p.1 t.2.1) with
  | some t => .error (incompatMsg t.1 t.2.1 t.2.2)
  | none => .ok p

/-- A dynamically created exit-code exception class, as made by
`get_rc_exc`: `type("ErrorReturnCode_%d" % rc, (ErrorReturnCode,), {})`.
The class dict is empty and the bases are fixed, so a class object is
determined by the code it was created for; it is represented here by that
code together with its name. -/
structure RcExc where
  code : Int
  name : String
deriving DecidableEq

/-- `get_rc_exc(rc)`: return the cached exception class for this exit code,
creating and caching `ErrorReturnCode_<rc>` on a miss. -/
def get_rc_exc (rc : Int) (cache : List (Int × RcExc)) :
    RcExc × List (Int × RcExc) :=
  match alookup rc cache with
  | some e => (e, cache)
  | none =>
    let name := "ErrorReturnCode_" ++ toString rc
    let exc : RcExc := { code := rc, name := name }
    (exc, (rc, exc) :: cache)

/-- `ErrorReturnCode.__init__`: truncate a captured stream to 750
characters for the message, noting how much was elided; None means the
stream was redirected elsewhere. -/
def truncateStream (tailName : String) : Option String → String
  | none => "<redirected>"
  | some s =>
    let t := s.take 750
    if t.length < s.length then
      t ++ "... (" ++ toString (s.length - t.length) ++ " more, please see e." ++
        tailName ++ ")"
    else t

/-- The human-readable message built by `ErrorReturnCode.__init__`
(`"\n\n  RAN: %r\n\n  STDOUT:\n%s\n\n  STDERR:\n%s"`). -/
def mkErrorMessage (full_cmd : String) (stdout stderr : Option String) : String :=
  "\n\n  RAN: " ++ squote ++ full_cmd ++ squote ++ "\n\n  STDOUT:\n" ++
  truncateStream "stdout" stdout ++ "\n\n  STDERR:\n" ++
  truncateStream "stderr" stderr

/-- One constructed exception object of an exit-code class: `id` is the
allocation identity of the instance (each Python construction makes a new
object), `exc` the class it instantiates, and the remaining fields are the
data `ErrorReturnCode.__init__` stores. -/
structure ErrInstance where
  id : Nat
  exc : RcExc
  full_cmd : String
  stdout : Option String
  stderr : Option String
  message : String
deriving DecidableEq

/-- Python exceptions the modelled code can raise. -/
inductive PyErr where
  | typeError : String → PyErr
  | valueError : String → PyErr
  | nameError : String → PyErr
  | attributeError : PyErr
  | errorReturnCode : ErrInstance → PyErr
deriving DecidableEq

/-- Modelled from the spec: one observed behaviour of the process backend.
OProc comes from the external oproc module (not under src/); per the spec
boundary it exposes a blocking wait returning the exit status and the
captured stdout/stderr byte buffers (None when redirected). -/
structure OBehavior where
  exit_status : Int
  stdout : Option String
  stderr : Option String
deriving DecidableEq

/-- Modelled from the spec: a spawned backend process handle — the command
line it was given, the redirection targets passed through to it, and its
(deterministic) behaviour. -/
structure OProcS where
  cmd : List String
  stdoutTarget : PyVal
  stderrTarget : PyVal
  exit_status : Int
  stdout : Option String
  stderr : Option String
deriving DecidableEq

/-- The process-wide mutable state the modelled code touches:
`Command._prepend_stack`, the `rc_exc_cache`, an allocation counter giving
each constructed exception object its identity, the number of backend
spawns performed, and the queue of behaviours the backend will exhibit on
successive spawns (modelled from the spec boundary). -/
structure World where
  prependStack : List (List String)
  rcCache : List (Int × RcExc)
  nextId : Nat
  spawnCount : Nat
  backendQueue : List OBehavior
deriving DecidableEq

/-- Modelled from the spec: spawning an OProc hands the compiled token list
and redirection targets to the backend and consumes the next queued
behaviour. -/
def spawnOProc (cmd : List String) (stdout stderr : PyVal) (w : World) :
    OProcS × World :=
  let beh := w.backendQueue.headD { exit_status := 0, stdout := none, stderr := none }
  ({ cmd := cmd, stdoutTarget := stdout, stderrTarget := stderr,
     exit_status := beh.exit_status, stdout := beh.stdout, stderr := beh.stderr },
   { w with backendQueue := w.backendQueue.tail,
            spawnCount := w.spawnCount + 1 })

/-- The live/lazy handle `RunningCommand`: the compiled command line, the
merged call options, the backend process (none when this invocation is a
prefix-context and never spawned), and the should-wait decision. -/
structure RunningCommandS where
  cmd : List String
  call_args : Dict
  process : Option OProcS
  should_wait : Bool
deriving DecidableEq

/-- `RunningCommand.__init__`: a with-context never spawns and instead
pushes its command line on the prepend stack; a callable redirection
target, the piped or for options, or bg turn off should_wait; otherwise
the process is spawned eagerly. -/
def mkRunningCommand (cmd : List String) (call_args : Dict)
    (stdout stderr : PyVal) (w : World) : RunningCommandS × World :=
  let withCtx := pyTruthy ((alookup "with" call_args).getD .vNone)
  let w1 := if withCtx then { w with prependStack := w.prependStack ++ [cmd] } else w
  let sw1 :=
    if pyCallable ((alookup "out" call_args).getD .vNone) ||
       pyCallable ((alookup "err" call_args).getD .vNone) then false else true
  let sw2 :=
    if pyTruthy ((alookup "piped" call_args).getD .vNone) ||
       pyTruthy ((alookup "for" call_args).getD .vNone) then false else sw1
  let sw :=
    if pyTruthy ((alookup "bg" call_args).getD .vNone) then false else sw2
  if withCtx then
    ({ cmd := cmd, call_args := call_args, process := none, should_wait := sw }, w1)
  else
    let pw := spawnOProc cmd stdout stderr w1
    ({ cmd := cmd, call_args := call_args, process := some pw.1, should_wait := sw },
     pw.2)

/-- `RunningCommand.wait`: ask the backend for the exit status; when it is
positive, construct a fresh instance of the cached exit-code class,
carrying the space-joined command line and the captured streams, and raise
it; otherwise return self.  Construction allocates a new instance identity
and may populate the class cache. -/
def RunningCommandS.wait (rc : RunningCommandS) (w : World) :
    Except PyErr RunningCommandS × World :=
  match rc.process with
  | none => (.error .attributeError, w)
  | some p =>
    if 0 < p.exit_status then
      let ec := get_rc_exc p.exit_status w.rcCache
      let inst : ErrInstance :=
        { id := w.nextId, exc := ec.1,
          full_cmd := String.intercalate " " rc.cmd,
          stdout := p.stdout, stderr := p.stderr,
          message := mkErrorMessage (String.intercalate " " rc.cmd) p.stdout p.stderr }
      (.error (.errorReturnCode inst),
       { w with rcCache := ec.2, nextId := w.nextId + 1 })
    else (.ok rc, w)

/-- A `Command`: the resolved program path, the partial flag, and the
baked tokens and call options a previous bake stored. -/
structure CommandS where
  path : String
  partialFlag : Bool
  partialBakedArgs : List String
  partialCallArgs : Dict
deriving DecidableEq

/-- `Command.bake`: make a fresh Command on the same path, mark it partial,
store in it the call options extracted from the new keyword arguments and
the tokens compiled from the new arguments.  (The receiver is read only
for its path.) -/
def bakeS (self : CommandS) (args : List PyVal) (kwargs : Dict) :
    Except String CommandS :=
  match extractCallArgs kwargs [] with
  | .error e => .error e
  | .ok (pca, kw) =>
    match compileArgs args kw with
    | .error e => .error e
    | .ok processed =>
      .ok { path := self.path, partialFlag := true,
            partialBakedArgs := processed, partialCallArgs := pca }

/-- `Command.__enter__`: push this command's path (as a one-token list)
onto the process-wide prepend stack. -/
def commandEnter (self : CommandS) (w : World) : World :=
  { w with prependStack := w.prependStack ++ [[self.path]] }

/-- `Command.__exit__`: pop the prepend stack. -/
def commandExit (_self : CommandS) (w : World) : World :=
  { w with prependStack := w.prependStack.dropLast }

/-- `Command.__call__`: start the token list with every entry on the
prepend stack then the resolved path; extract call options overridden by
the baked ones and merge them over the defaults; compile the remaining
arguments; append baked then fresh tokens; resolve the stdout and stderr
redirection targets — a falsy target and a callable target are passed
through, but any other target reaches `hasattr(out, "write")`
(respectively err), which raises NameError because no name out/err is in
scope — and finally construct the RunningCommand.  A RunningCommand as
first positional argument (pipe source) is outside the modelled value
universe; args here range over plain values, for which the pipe branch
reinserts the argument unchanged. -/
def Command.call (self : CommandS) (args : List PyVal) (kwargs : Dict)
    (w : World) : Except PyErr RunningCommandS × World :=
  let cmd0 : List String := w.prependStack.flatten ++ [self.path]
  match extractCallArgs kwargs self.partialCallArgs with
  | .error m => (.error (.typeError m), w)
  | .ok (tmp, kwargs2) =>
    let call_args := callArgDefaults.map (fun kd => (kd.1, (alookup kd.1 tmp).getD kd.2))
    match compileArgs args kwargs2 with
    | .error m => (.error (.valueError m), w)
    | .ok processed =>
      let final_args := self.partialBakedArgs ++ processed
      let cmd := cmd0 ++ final_args
      let out := (alookup "out" call_args).getD .vNone
      if pyTruthy out && !pyCallable out then (.error (.nameError "out"), w)
      else
        let err := (alookup "err" call_args).getD .vNone
        if pyTruthy err && !pyCallable err then (.error (.nameError "err"), w)
        else
          let rcw := mkRunningCommand cmd call_args out err w
          (.ok rcw.1, rcw.2)

/-- A tiny heap of Python dict objects: each cell is an object address
paired with the dict's current contents; `next` is the next fresh
address.  Used to model the object-identity side of
`Command._extract_call_args` (which dict object each mutation targets). -/
structure Heap where
  cells : List (Nat × Dict)
  next : Nat

/-- The contents of the dict object at an address (empty if unallocated). -/
def heapLookup (h : Heap) (a : Nat) : Dict :=
  (alookup a h.cells).getD []

/-- Overwrite the contents of the (first) cell at an address. -/
def heapSet : List (Nat × Dict) → Nat → Dict → List (Nat × Dict)
  | [], _, _ => []
  | c :: rest, a, d => if c.1 = a then (a, d) :: rest else c :: heapSet rest a d

/-- `d.copy()`: allocate a fresh dict object with the same contents. -/
def heapAlloc (h : Heap) (d : Dict) : Nat × Heap :=
  (h.next, { cells := (h.next, d) :: h.cells, next := h.next + 1 })

/-- One iteration of the extraction loop of `Command._extract_call_args`,
at the heap level: the lookup and the `del` act on the dict object at
address ca (the copy), never on the caller's object. -/
def extractStepHeap (ov : Dict) (ca : Nat) (acc : Dict × Heap)
    (pd : String × PyVal) : Dict × Heap :=
  let key := "_" ++ pd.1
  let kw := heapLookup acc.2 ca
  match alookup key kw with
  | some v =>
    (dictInsert acc.1 pd.1 v,
     { acc.2 with cells := heapSet acc.2.cells ca (eraseKey key kw) })
  | none =>
    match alookup pd.1 ov with
    | some v => (dictInsert acc.1 pd.1 v, acc.2)
    | none => acc

/-- `Command._extract_call_args` at the heap level: the first statement is
`kwargs = kwargs.copy()`, rebinding the local name to a fresh object, so
every later mutation hits the copy.  Returns the extracted call_args and
the address of the surviving copy, alongside the final heap. -/
def extractCallArgsHeap (a : Nat) (ov : Dict) (h : Heap) :
    Except String (Dict × Nat) × Heap :=
  let ad := heapAlloc h (heapLookup h a)
  let p := callArgDefaults.foldl (extractStepHeap ov ad.1) ([], ad.2)
  (match incompatList.find? (fun t => containsKey p.1 t.1 && containsKey p.1 t.2.1) with
   | some t => .error (incompatMsg t.1 t.2.1 t.2.2)
   | none => .ok (p.1, ad.1), p.2)

/-- Definition following the spec text of claim C1: a named option of
length 1 compiles to the single fragment `-k` when its value is boolean
true and to `-k <quoted value>` otherwise; a longer name has every
underscore replaced by a hyphen and compiles to `--name` when boolean
true, `--name=<quoted value>` otherwise. -/
def claimNamedFragment (k : String) (v : PyVal) : String :=
  if k.length = 1 then
    (if v = .vBool true then "-" ++ k else "-" ++ k ++ " " ++ formatArg v)
  else
    (if v = .vBool true then "--" ++ k.replace "_" "-"
     else "--" ++ k.replace "_" "-" ++ "=" ++ formatArg v)

/-- Definition following the spec text of claim C2: a positional value
that is a sequence contributes one token per element (each stringified and
quoted); any other value becomes a single stringified, quoted token. -/
def claimPositionalTokens : PyVal → List String
  | .vList xs => xs.map formatArg
  | v => [formatArg v]

/-- Is the first character list an initial segment of the second? -/
def startsWithChars : List Char → List Char → Bool
  | [], _ => true
  | _ :: _, [] => false
  | a :: as, b :: bs => a == b && startsWithChars as bs

/-- Does the first character list occur contiguously inside the second? -/
def containsChars (n : List Char) : List Char → Bool
  | [] => startsWithChars n []
  | c :: hay => startsWithChars n (c :: hay) || containsChars n hay

/-- Does one string occur inside another? -/
def occursIn (needle s : String) : Bool :=
  containsChars needle.data s.data

theorem namedFold_eq (kwargs : Dict) :
    ∀ acc : List String,
      kwargs.foldl (fun acc kv => acc ++ [namedFragment kv.1 kv.2]) acc
        = acc ++ kwargs.map (fun kv => namedFragment kv.1 kv.2) := by
  induction kwargs with
  | nil => intro acc; simp
  | cons x xs ih => intro acc; simp [List.foldl, ih]

theorem posFold_eq (args : List PyVal) :
    ∀ acc : List String,
      args.foldl (fun acc arg => acc ++ positionalFragments arg) acc
        = acc ++ (args.map positionalFragments).flatten := by
  induction args with
  | nil => intro acc; simp
  | cons x xs ih => intro acc; simp [List.foldl, ih]

theorem positionalFragments_eq_claim (arg : PyVal) :
    positionalFragments arg = claimPositionalTokens arg := by
  cases arg <;> rfl

theorem namedFragment_eq_claim (k : String) (v : PyVal) :
    namedFragment k v = claimNamedFragment k v := by
  have hv : pyIsTrue v = true ↔ v = .vBool true := by
    cases v with
    | vBool b => cases b <;> simp [pyIsTrue]
    | _ => simp [pyIsTrue]
  by_cases h : v = .vBool true
  · subst h; simp [namedFragment, claimNamedFragment, pyIsTrue]
  · have : pyIsTrue v = false := by
      cases hb : pyIsTrue v
      · rfl
      · exact absurd (hv.mp hb) h
    simp [namedFragment, claimNamedFragment, this, h]

/-- Claim C1: every named option passed to the argument compiler
contributes exactly one fragment, of the shape the claim states — a
one-character name gives `-k` for boolean true and `-k <quoted value>`
otherwise; a longer name has every underscore replaced by a hyphen and
gives `--name` for boolean true and `--name=<quoted value>` otherwise —
appended after the positional fragments. -/
theorem named_option_fragments :
    ∀ (args : List PyVal) (kwargs : Dict),
      compileFragments args kwargs
        = compileFragments args []
            ++ kwargs.map (fun kv => claimNamedFragment kv.1 kv.2) := by
  intro args kwargs
  have hfun : (fun kv : String × PyVal => namedFragment kv.1 kv.2)
      = (fun kv : String × PyVal => claimNamedFragment kv.1 kv.2) :=
    funext (fun kv => namedFragment_eq_claim kv.1 kv.2)
  simp only [compileFragments]
  rw [namedFold_eq, hfun]
  simp

/-- Claim C2: positional flattening is exactly one level deep — the
compiled positional fragments are the one-level flattening where a
sequence contributes one token per element, an element that is itself a
sequence passes through as a single stringified, quoted token, and a
non-sequence positional value becomes a single quoted token. -/
theorem positional_flattening_one_level :
    (∀ args : List PyVal,
        compileFragments args [] = (args.map claimPositionalTokens).flatten) ∧
    (∀ xs : List PyVal, claimPositionalTokens (.vList xs) = xs.map formatArg) ∧
    (∀ xs : List PyVal,
        compileFragments [.vList [.vList xs]] []
          = ["\"" ++ pyStr (.vList xs) ++ "\""]) ∧
    (∀ v : PyVal, (∀ xs, v ≠ .vList xs) → claimPositionalTokens v = [formatArg v]) := by
  refine ⟨?_, ?_, ?_, ?_⟩
  · intro args
    have hfun : positionalFragments = claimPositionalTokens :=
      funext positionalFragments_eq_claim
    simp only [compileFragments, List.foldl]
    rw [posFold_eq, hfun]
    simp
  · intro xs; rfl
  · intro xs; rfl
  · intro v hv
    cases v with
    | vList xs => exact absurd rfl (hv xs)
    | vNone => rfl
    | vBool b => rfl
    | vInt n => rfl
    | vStr s => rfl
    | vCallable n => rfl
    | vStream n => rfl

/-- Witness for the hypothesis-bearing part of the C2 theorem, at the
concrete non-sequence value "a". -/
theorem positional_flattening_one_level_witness :
    claimPositionalTokens (.vStr "a") = [formatArg (.vStr "a")] :=
  positional_flattening_one_level.2.2.2 (.vStr "a")
    (fun _ h => PyVal.noConfusion h)

theorem alookup_append_of_some {α β : Type} [DecidableEq α]
    (d e : List (α × β)) (k : α) (v : β) (h : alookup k d = some v) :
    alookup k (d ++ e) = some v := by
  induction d with
  | nil => simp [alookup] at h
  | cons p rest ih =>
    by_cases hp : p.1 = k
    · simp [alookup, hp] at h ⊢; exact h
    · simp [alookup, hp] at h ⊢; exact ih h

theorem containsKey_dictInsert_self {α β : Type} [DecidableEq α]
    (d : List (α × β)) (k : α) (v : β) :
    containsKey (dictInsert d k v) k = true := by
  induction d with
  | nil => simp [containsKey, dictInsert, alookup]
  | cons p rest ih =>
    by_cases hp : p.1 = k <;>
      simp_all [containsKey, dictInsert, alookup, hp]

theorem containsKey_dictInsert_mono {α β : Type} [DecidableEq α]
    (d : List (α × β)) (k k' : α) (v : β) (h : containsKey d k' = true) :
    containsKey (dictInsert d k v) k' = true := by
  unfold containsKey at h ⊢
  unfold dictInsert
  cases hv : alookup k' d with
  | none => rw [hv] at h; simp at h
  | some w => rw [alookup_append_of_some d [(k, v)] k' w hv]; rfl

theorem alookup_eraseKey_ne {α β : Type} [DecidableEq α]
    (k k' : α) (h : k ≠ k') :
    ∀ d : List (α × β), alookup k' (eraseKey k d) = alookup k' d := by
  intro d
  induction d with
  | nil => rfl
  | cons p rest ih =>
    by_cases hp : p.1 = k
    · have hp' : p.1 ≠ k' := by rw [hp]; exact h
      simp [eraseKey, hp, alookup, hp', ih, h]
    · simp [eraseKey, hp, alookup, ih]

theorem extractStep_contains_mono (ov : Dict) (pd : String × PyVal)
    (acc : Dict × Dict) (k : String) (h : containsKey acc.1 k = true) :
    containsKey (extractStep ov acc pd).1 k = true := by
  simp only [extractStep]
  cases h1 : alookup ("_" ++ pd.1) acc.2 with
  | some v => exact containsKey_dictInsert_mono acc.1 pd.1 k v h
  | none =>
    cases h2 : alookup pd.1 ov with
    | some v => exact containsKey_dictInsert_mono acc.1 pd.1 k v h
    | none => exact h

theorem foldl_extract_contains (ov : Dict) :
    ∀ (l : List (String × PyVal)) (acc : Dict × Dict) (k : String),
      containsKey acc.1 k = true →
      containsKey (l.foldl (extractStep ov) acc).1 k = true := by
  intro l
  induction l with
  | nil => intro acc k h; exact h
  | cons pd rest ih =>
    intro acc k h
    exact ih _ _ (extractStep_contains_mono ov pd acc k h)

theorem extract_fgbg (kwargs ov : Dict)
    (hf : containsKey kwargs "_fg" = true ∨ containsKey ov "fg" = true)
    (hb : containsKey kwargs "_bg" = true ∨ containsKey ov "bg" = true) :
    extractCallArgs kwargs ov = .error fgBgMsg := by
  have hA1 : containsKey (extractStep ov ([], kwargs) ("fg", .vBool false)).1 "fg" = true
      ∧ alookup "_bg" (extractStep ov ([], kwargs) ("fg", .vBool false)).2
          = alookup "_bg" kwargs := by
    simp only [extractStep]
    have hkey : ("_" ++ "fg" : String) = "_fg" := rfl
    rw [hkey]
    cases h1 : alookup "_fg" kwargs with
    | some v =>
      refine ⟨containsKey_dictInsert_self [] "fg" v, ?_⟩
      exact alookup_eraseKey_ne "_fg" "_bg" (by decide) kwargs
    | none =>
      rcases hf with hf | hf
      · rw [containsKey, h1] at hf; simp at hf
      · cases h2 : alookup "fg" ov with
        | some v => exact ⟨containsKey_dictInsert_self [] "fg" v, rfl⟩
        | none => rw [containsKey, h2] at hf; simp at hf
  have hA2 : containsKey
        (extractStep ov (extractStep ov ([], kwargs) ("fg", .vBool false))
          ("bg", .vBool false)).1 "fg" = true
      ∧ containsKey
        (extractStep ov (extractStep ov ([], kwargs) ("fg", .vBool false))
          ("bg", .vBool false)).1 "bg" = true := by
    obtain ⟨ha, hlb⟩ := hA1
    set acc1 := extractStep ov ([], kwargs) ("fg", .vBool false) with hacc1
    simp only [extractStep]
    have hkey : ("_" ++ "bg" : String) = "_bg" := rfl
    rw [hkey]
    cases h1 : alookup "_bg" acc1.2 with
    | some v =>
      exact ⟨containsKey_dictInsert_mono acc1.1 "bg" "fg" v ha,
             containsKey_dictInsert_self acc1.1 "bg" v⟩
    | none =>
      rw [hlb] at h1
      rcases hb with hb | hb
      · rw [containsKey, h1] at hb; simp at hb
      · cases h2 : alookup "bg" ov with
        | some v =>
          exact ⟨containsKey_dictInsert_mono acc1.1 "bg" "fg" v ha,
                 containsKey_dictInsert_self acc1.1 "bg" v⟩
        | none => rw [containsKey, h2] at hb; simp at hb
  have hunfold : callArgDefaults.foldl (extractStep ov) ([], kwargs)
      = (callArgDefaults.drop 2).foldl (extractStep ov)
          (extractStep ov (extractStep ov ([], kwargs) ("fg", .vBool false))
            ("bg", .vBool false)) := rfl
  have hfg : containsKey (callArgDefaults.foldl (extractStep ov) ([], kwargs)).1 "fg" = true := by
    rw [hunfold]
    exact foldl_extract_contains ov _ _ "fg" hA2.1
  have hbg : containsKey (callArgDefaults.foldl (extractStep ov) ([], kwargs)).1 "bg" = true := by
    rw [hunfold]
    exact foldl_extract_contains ov _ _ "bg" hA2.2
  simp only [extractCallArgs, incompatList]
  rw [List.find?_cons_of_pos _ (by simp [hfg, hbg])]
  rfl

/-- Claim C5: whenever both members of the mutually exclusive pair fg/bg
are present in the merged option set (from the kwargs bag or from the
baked overrides), option extraction fails with the configuration error
whose message names the offending pair, and an invocation with such
options fails in the same way leaving the world untouched — in
particular no process is spawned. -/
theorem incompatible_options_rejected_before_spawn :
    (∀ kwargs ov : Dict,
        (containsKey kwargs "_fg" = true ∨ containsKey ov "fg" = true) →
        (containsKey kwargs "_bg" = true ∨ containsKey ov "bg" = true) →
        extractCallArgs kwargs ov = .error fgBgMsg) ∧
    (occursIn "fg" fgBgMsg = true ∧ occursIn "bg" fgBgMsg = true) ∧
    (∀ (self : CommandS) (args : List PyVal) (kwargs : Dict) (w : World),
        (containsKey kwargs "_fg" = true ∨ containsKey self.partialCallArgs "fg" = true) →
        (containsKey kwargs "_bg" = true ∨ containsKey self.partialCallArgs "bg" = true) →
        Command.call self args kwargs w = (.error (.typeError fgBgMsg), w)) := by
  refine ⟨extract_fgbg, ⟨by decide, by decide⟩, ?_⟩
  intro self args kwargs w h1 h2
  have hE := extract_fgbg kwargs self.partialCallArgs h1 h2
  simp only [Command.call, hE]

/-- Witness for the C5 theorem at a concrete baked fg=True, bg=True
command: invocation is rejected with the fg/bg configuration error and
the world (in particular the spawn count) is unchanged. -/
theorem incompatible_options_rejected_before_spawn_witness :
    Command.call
        { path := "/bin/tool", partialFlag := true, partialBakedArgs := [],
          partialCallArgs := [("fg", .vBool true), ("bg", .vBool true)] }
        [] []
        { prependStack := [], rcCache := [], nextId := 0, spawnCount := 0,
          backendQueue := [] }
      = (.error (.typeError fgBgMsg),
         { prependStack := [], rcCache := [], nextId := 0, spawnCount := 0,
           backendQueue := [] }) :=
  incompatible_options_rejected_before_spawn.2.2
    { path := "/bin/tool", partialFlag := true, partialBakedArgs := [],
      partialCallArgs := [("fg", .vBool true), ("bg", .vBool true)] }
    [] []
    { prependStack := [], rcCache := [], nextId := 0, spawnCount := 0,
      backendQueue := [] }
    (Or.inr (by decide)) (Or.inr (by decide))

/-- Claim C9: the mutual-exclusion check fires on the mere presence of
both keys of an incompatible pair, regardless of their values — _fg and
_bg with any values produce the same configuration error as both True. -/
theorem incompatibility_by_key_presence :
    ∀ v1 v2 : PyVal,
      extractCallArgs [("_fg", v1), ("_bg", v2)] [] = .error fgBgMsg ∧
      extractCallArgs [("_fg", .vBool false), ("_bg", .vBool false)] []
        = extractCallArgs [("_fg", .vBool true), ("_bg", .vBool true)] [] := by
  intro v1 v2
  constructor
  · exact extract_fgbg [("_fg", v1), ("_bg", v2)] []
      (Or.inl (by simp [containsKey, alookup])) (Or.inl (by simp [containsKey, alookup]))
  · rw [extract_fgbg [("_fg", .vBool false), ("_bg", .vBool false)] []
        (Or.inl (by decide)) (Or.inl (by decide)),
      extract_fgbg [("_fg", .vBool true), ("_bg", .vBool true)] []
        (Or.inl (by decide)) (Or.inl (by decide))]

/-- The invariant the exit-code class cache maintains: every cached entry
was created for the code it is keyed by. -/
def cacheWF (c : List (Int × RcExc)) : Prop :=
  ∀ p ∈ c, p.2.code = p.1

theorem alookup_mem {α β : Type} [DecidableEq α]
    (k : α) (v : β) : ∀ d : List (α × β), alookup k d = some v → (k, v) ∈ d := by
  intro d
  induction d with
  | nil => intro h; simp [alookup] at h
  | cons p rest ih =>
    obtain ⟨a, b⟩ := p
    intro h
    by_cases hp : a = k
    · simp [alookup, hp] at h
      subst hp
      subst h
      exact List.mem_cons_self _ _
    · simp [alookup, hp] at h
      exact List.mem_cons_of_mem _ (ih h)

theorem get_rc_exc_idem (rc : Int) (c : List (Int × RcExc)) :
    get_rc_exc rc (get_rc_exc rc c).2 = ((get_rc_exc rc c).1, (get_rc_exc rc c).2) := by
  cases h : alookup rc c with
  | some e => simp [get_rc_exc, h]
  | none => simp [get_rc_exc, h, alookup]

theorem get_rc_exc_code (rc : Int) (c : List (Int × RcExc)) (hwf : cacheWF c) :
    ((get_rc_exc rc c).1).code = rc := by
  cases h : alookup rc c with
  | some e =>
    have hc := hwf (rc, e) (alookup_mem rc e c h)
    simp only [get_rc_exc, h]
    exact hc
  | none => simp [get_rc_exc, h]

/-- Claim C6: exit-code class lookup is idempotent and identity-stable —
a second lookup of the same code returns the cached class and leaves the
cache unchanged; from well-formed caches, the class returned for a code
carries that code, well-formedness is preserved, and lookups of two
distinct codes return distinct classes; the initial empty cache is
well-formed. -/
theorem rc_exc_lookup_idempotent_and_injective :
    (∀ (rc : Int) (c : List (Int × RcExc)),
        get_rc_exc rc (get_rc_exc rc c).2 = ((get_rc_exc rc c).1, (get_rc_exc rc c).2)) ∧
    (∀ (rc : Int) (c : List (Int × RcExc)), cacheWF c →
        ((get_rc_exc rc c).1).code = rc) ∧
    (∀ (rc : Int) (c : List (Int × RcExc)), cacheWF c →
        cacheWF (get_rc_exc rc c).2) ∧
    (∀ (rc rc' : Int) (c c' : List (Int × RcExc)), cacheWF c → cacheWF c' →
        rc ≠ rc' → (get_rc_exc rc c).1 ≠ (get_rc_exc rc' c').1) ∧
    cacheWF [] := by
  refine ⟨get_rc_exc_idem, get_rc_exc_code, ?_, ?_, ?_⟩
  · intro rc c hwf
    cases h : alookup rc c with
    | some e => simpa [get_rc_exc, h] using hwf
    | none =>
      simp only [get_rc_exc, h]
      intro p hp
      cases hp with
      | head => rfl
      | tail _ hmem => exact hwf p hmem
  · intro rc rc' c c' hwf hwf' hne
    intro hEq
    apply hne
    rw [← get_rc_exc_code rc c hwf, ← get_rc_exc_code rc' c' hwf', hEq]
  · intro p hp; exact absurd hp (List.not_mem_nil p)

/-- Witness for the C6 theorem at codes 2 and 3 and the empty cache. -/
theorem rc_exc_lookup_idempotent_and_injective_witness :
    get_rc_exc 2 (get_rc_exc 2 []).2 = ((get_rc_exc 2 []).1, (get_rc_exc 2 []).2) ∧
    (get_rc_exc 2 []).1 ≠ (get_rc_exc 3 []).1 :=
  ⟨rc_exc_lookup_idempotent_and_injective.1 2 [],
   rc_exc_lookup_idempotent_and_injective.2.2.2.1 2 3 [] []
     rc_exc_lookup_idempotent_and_injective.2.2.2.2
     rc_exc_lookup_idempotent_and_injective.2.2.2.2
     (by decide)⟩

/-- Claim C3 (amended): `wait()` is idempotent up to instance identity — a
second call on the same invocation re-reads the same backend handle
without re-spawning (the spawn count and the backend queue are untouched),
returns the same captured output, and, when the exit status is positive,
raises on both calls an error of the same cached kind carrying the same
joined command line and the same captured streams; each call, however,
constructs a fresh error instance. -/
theorem wait_idempotent_same_kind :
    ∀ (rc : RunningCommandS) (p : OProcS) (w : World),
      rc.process = some p →
      (0 < p.exit_status →
        ∃ e1 e2 : ErrInstance,
          (RunningCommandS.wait rc w).1 = .error (.errorReturnCode e1) ∧
          (RunningCommandS.wait rc (RunningCommandS.wait rc w).2).1
            = .error (.errorReturnCode e2) ∧
          e1.exc = e2.exc ∧ e1.full_cmd = e2.full_cmd ∧
          e1.stdout = e2.stdout ∧ e1.stderr = e2.stderr ∧
          e1.stdout = p.stdout ∧ e1.id ≠ e2.id) ∧
      (p.exit_status ≤ 0 →
        (RunningCommandS.wait rc w).1 = .ok rc ∧
        (RunningCommandS.wait rc w).2 = w) ∧
      ((RunningCommandS.wait rc (RunningCommandS.wait rc w).2).2).spawnCount
        = w.spawnCount ∧
      ((RunningCommandS.wait rc (RunningCommandS.wait rc w).2).2).backendQueue
        = w.backendQueue := by
  intro rc p w h
  refine ⟨?_, ?_, ?_, ?_⟩
  · intro hes
    refine ⟨{ id := w.nextId,
              exc := (get_rc_exc p.exit_status w.rcCache).1,
              full_cmd := String.intercalate " " rc.cmd,
              stdout := p.stdout, stderr := p.stderr,
              message := mkErrorMessage (String.intercalate " " rc.cmd) p.stdout p.stderr },
            { id := w.nextId + 1,
              exc := (get_rc_exc p.exit_status w.rcCache).1,
              full_cmd := String.intercalate " " rc.cmd,
              stdout := p.stdout, stderr := p.stderr,
              message := mkErrorMessage (String.intercalate " " rc.cmd) p.stdout p.stderr },
            ?_, ?_, ?_, ?_, ?_, ?_, ?_, ?_⟩
    · simp only [RunningCommandS.wait, h, if_pos hes]
    · simp only [RunningCommandS.wait, h, if_pos hes]
      rw [get_rc_exc_idem]
    · rfl
    · rfl
    · rfl
    · rfl
    · rfl
    · simp
  · intro hle
    have hn : ¬ 0 < p.exit_status := not_lt.mpr hle
    simp [RunningCommandS.wait, h, if_neg hn]
  · by_cases hes : 0 < p.exit_status
    · simp only [RunningCommandS.wait, h, if_pos hes]
    · simp only [RunningCommandS.wait, h, if_neg hes]
  · by_cases hes : 0 < p.exit_status
    · simp only [RunningCommandS.wait, h, if_pos hes]
    · simp only [RunningCommandS.wait, h, if_neg hes]

/-- Backend handle used by the C3 theorems: exit status 1 with captured
output. -/
def waitP : OProcS :=
  { cmd := ["foo"], stdoutTarget := .vNone, stderrTarget := .vNone,
    exit_status := 1, stdout := some "o", stderr := some "" }

/-- RunningCommand used by the C3 theorems. -/
def waitRC : RunningCommandS :=
  { cmd := ["foo"], call_args := [], process := some waitP, should_wait := true }

/-- Initial world used by the C3 theorems. -/
def waitW : World :=
  { prependStack := [], rcCache := [], nextId := 0, spawnCount := 0,
    backendQueue := [] }

/-- The error instance a wait outcome raised, if any. -/
def errInstOf : Except PyErr RunningCommandS → Option ErrInstance
  | .error (.errorReturnCode e) => some e
  | _ => none

/-- Counterexample to claim C3 as stated: on a failing invocation the two
wait calls raise errors of the same kind but the raised objects are two
distinct freshly constructed instances (allocation identities 0 and 1),
not the same error instance. -/
theorem wait_raises_fresh_instance_counterexample :
    (errInstOf (RunningCommandS.wait waitRC waitW).1).map ErrInstance.id = some 0 ∧
    (errInstOf (RunningCommandS.wait waitRC
        (RunningCommandS.wait waitRC waitW).2).1).map ErrInstance.id = some 1 ∧
    (errInstOf (RunningCommandS.wait waitRC waitW).1).map ErrInstance.exc
      = (errInstOf (RunningCommandS.wait waitRC
          (RunningCommandS.wait waitRC waitW).2).1).map ErrInstance.exc ∧
    errInstOf (RunningCommandS.wait waitRC waitW).1
      ≠ errInstOf (RunningCommandS.wait waitRC
          (RunningCommandS.wait waitRC waitW).2).1 := by
  refine ⟨rfl, rfl, rfl, ?_⟩
  decide

/-- Witness for the C3 amended theorem at the concrete failing
invocation. -/
theorem wait_idempotent_same_kind_witness :
    ∃ e1 e2 : ErrInstance,
      (RunningCommandS.wait waitRC waitW).1 = .error (.errorReturnCode e1) ∧
      (RunningCommandS.wait waitRC (RunningCommandS.wait waitRC waitW).2).1
        = .error (.errorReturnCode e2) ∧
      e1.exc = e2.exc ∧ e1.full_cmd = e2.full_cmd ∧
      e1.stdout = e2.stdout ∧ e1.stderr = e2.stderr ∧
      e1.stdout = waitP.stdout ∧ e1.id ≠ e2.id :=
  (wait_idempotent_same_kind waitRC waitP waitW rfl).1 (by decide)

instance {ε α : Type} [DecidableEq ε] [DecidableEq α] :
    DecidableEq (Except ε α) := fun
  | .error e, .error f =>
    if h : e = f then .isTrue (by rw [h])
    else .isFalse (by intro hh; cases hh; exact h rfl)
  | .error _, .ok _ => .isFalse (by intro h; cases h)
  | .ok _, .error _ => .isFalse (by intro h; cases h)
  | .ok a, .ok b =>
    if h : a = b then .isTrue (by rw [h])
    else .isFalse (by intro hh; cases hh; exact h rfl)

/-- A plain, never-baked command used by the C4 theorems. -/
def bakeBase : CommandS :=
  { path := "/bin/tool", partialFlag := false, partialBakedArgs := [],
    partialCallArgs := [] }

/-- The command obtained by baking bakeBase with positional "a" and
_fg=True. -/
def bakeOnce : CommandS :=
  { path := "/bin/tool", partialFlag := true, partialBakedArgs := ["a"],
    partialCallArgs := [("fg", .vBool true)] }

/-- Counterexample to claim C4 as stated: re-baking a command that already
carries baked token "a" and baked option fg with a new positional "b"
returns a Command whose baked tokens are just ["b"] and whose call-options
are empty — the receiver's accumulated tokens and options are discarded,
not accumulated and merged. -/
theorem bake_discards_accumulated_counterexample :
    bakeS bakeBase [.vStr "a"] [("_fg", .vBool true)] = .ok bakeOnce ∧
    bakeS bakeOnce [.vStr "b"] []
      = .ok { path := "/bin/tool", partialFlag := true,
              partialBakedArgs := ["b"], partialCallArgs := [] } ∧
    bakeS bakeOnce [.vStr "b"] []
      ≠ .ok { path := "/bin/tool", partialFlag := true,
              partialBakedArgs := bakeOnce.partialBakedArgs ++ ["b"],
              partialCallArgs := bakeOnce.partialCallArgs } ∧
    containsKey bakeOnce.partialCallArgs "fg" = true := by
  refine ⟨rfl, rfl, ?_, by decide⟩
  decide

/-- Claim C4 (amended): `bake` returns a new Command on the receiver's
path whose baked tokens are exactly the tokens compiled from the new
arguments and whose call-options are exactly the options extracted from
the new keyword arguments; the receiver's accumulated baked state is
ignored (bake depends only on the receiver's path), nothing is executed,
and, the model being pure, the receiver is unchanged. -/
theorem bake_replaces_baked_state :
    ∀ (self : CommandS) (args : List PyVal) (kwargs : Dict),
      bakeS self args kwargs
        = bakeS { path := self.path, partialFlag := false,
                  partialBakedArgs := [], partialCallArgs := [] } args kwargs ∧
      ∀ (pca kw2 : Dict) (pa : List String),
        extractCallArgs kwargs [] = .ok (pca, kw2) →
        compileArgs args kw2 = .ok pa →
        bakeS self args kwargs
          = .ok { path := self.path, partialFlag := true,
                  partialBakedArgs := pa, partialCallArgs := pca } := by
  intro self args kwargs
  refine ⟨rfl, ?_⟩
  intro pca kw2 pa h1 h2
  simp [bakeS, h1, h2]

/-- Witness for the C4 amended theorem at the concrete re-bake of
bakeOnce with positional "b". -/
theorem bake_replaces_baked_state_witness :
    bakeS bakeOnce [.vStr "b"] []
      = .ok { path := bakeOnce.path, partialFlag := true,
              partialBakedArgs := ["b"], partialCallArgs := [] } :=
  (bake_replaces_baked_state bakeOnce [.vStr "b"] []).2 [] [] ["b"] rfl rfl

/-- Command used by the C7 theorem. -/
def c7cmd : CommandS :=
  { path := "/usr/bin/tool", partialFlag := false, partialBakedArgs := [],
    partialCallArgs := [] }

/-- World used by the C7 theorem: no prefix context, one backend
behaviour queued, nothing spawned yet. -/
def c7w : World :=
  { prependStack := [], rcCache := [], nextId := 0, spawnCount := 0,
    backendQueue := [{ exit_status := 0, stdout := some "", stderr := some "" }] }

/-- The stdout target the backend received, if the invocation spawned. -/
def stdoutTargetOf : Except PyErr RunningCommandS → Option PyVal
  | .ok rc =>
    match rc.process with
    | some p => some p.stdoutTarget
    | none => none
  | .error _ => none

/-- Claim C7 (code bug): resolving redirection targets in
`Command.__call__` references the undefined names out and err
(`hasattr(out, "write")`, `file(str(err), "w")`) instead of the local
variables stdout/stderr, so any truthy, non-callable stdout or stderr
target — a path string, and even a stream-like object with a write
method — raises NameError instead of being opened or passed through; no
process is spawned.  Only a callable target (or a falsy one) survives and
is passed through to the backend unchanged. -/
theorem redirection_target_name_error :
    Command.call c7cmd [] [("_out", .vStr "log.txt")] c7w
      = (.error (.nameError "out"), c7w) ∧
    Command.call c7cmd [] [("_out", .vStream "sink")] c7w
      = (.error (.nameError "out"), c7w) ∧
    Command.call c7cmd [] [("_err", .vStr "err.log")] c7w
      = (.error (.nameError "err"), c7w) ∧
    stdoutTargetOf (Command.call c7cmd [] [("_out", .vCallable "f")] c7w).1
      = some (.vCallable "f") ∧
    (Command.call c7cmd [] [("_out", .vStr "log.txt")] c7w).2.spawnCount
      = c7w.spawnCount := by
  refine ⟨?_, ?_, ?_, rfl, rfl⟩ <;> decide

theorem mkRunningCommand_cmd (cmd : List String) (call_args : Dict)
    (stdout stderr : PyVal) (w : World) :
    (mkRunningCommand cmd call_args stdout stderr w).1.cmd = cmd := by
  simp only [mkRunningCommand]
  split <;> rfl

/-- Claim C8: entering a Command as a prefix-context pushes its path onto
the process-wide prefix stack; every command whose invocation succeeds
gets the full current stack, in stack order, prepended before its own
path in the compiled token list; and exiting the context pops the stack
back to its prior state (in particular its prior length). -/
theorem prefix_stack_push_prepend_pop :
    (∀ (c : CommandS) (w : World),
        (commandEnter c w).prependStack = w.prependStack ++ [[c.path]]) ∧
    (∀ (self : CommandS) (args : List PyVal) (kwargs : Dict) (w : World)
        (rc : RunningCommandS) (w2 : World),
        Command.call self args kwargs w = (.ok rc, w2) →
        ∃ rest, rc.cmd = w.prependStack.flatten ++ self.path :: rest) ∧
    (∀ (c : CommandS) (w : World),
        (commandExit c (commandEnter c w)).prependStack = w.prependStack) := by
  refine ⟨fun c w => rfl, ?_, ?_⟩
  · intro self args kwargs w rc w2 h
    unfold Command.call at h
    split at h
    · simp at h
    · split at h
      · simp at h
      · dsimp only at h
        split at h
        · simp at h
        · split at h
          · simp at h
          · rename_i processed heq2 hout herr
            injection h with h1 h2
            injection h1 with h1
            refine ⟨self.partialBakedArgs ++ processed, ?_⟩
            rw [← h1, mkRunningCommand_cmd]
            simp
  · intro c w
    simp [commandEnter, commandExit]

/-- Command used by the C8 witness. -/
def c8cmd : CommandS :=
  { path := "/bin/ls", partialFlag := false, partialBakedArgs := [],
    partialCallArgs := [] }

/-- World used by the C8 witness: one prefix-context entry is active. -/
def c8w : World :=
  { prependStack := [["sudo"]], rcCache := [], nextId := 0, spawnCount := 0,
    backendQueue := [] }

/-- The RunningCommand produced by invoking c8cmd inside the active
prefix-context of c8w. -/
def c8rc : RunningCommandS :=
  { cmd := ["sudo", "/bin/ls"],
    call_args :=
      [("fg", .vBool false), ("bg", .vBool false), ("with", .vBool false),
       ("in", .vNone), ("out", .vNone), ("err", .vNone),
       ("err_to_out", .vNone), ("bufsize", .vInt 1), ("piped", .vNone),
       ("for", .vNone)],
    process := some
      { cmd := ["sudo", "/bin/ls"], stdoutTarget := .vNone,
        stderrTarget := .vNone, exit_status := 0, stdout := none,
        stderr := none },
    should_wait := true }

/-- The world after the C8 witness invocation: one spawn consumed. -/
def c8w2 : World :=
  { prependStack := [["sudo"]], rcCache := [], nextId := 0, spawnCount := 1,
    backendQueue := [] }

/-- Witness for the C8 theorem: the concrete invocation inside the active
prefix-context carries the stack entry before its own path. -/
theorem prefix_stack_push_prepend_pop_witness :
    ∃ rest, c8rc.cmd = c8w.prependStack.flatten ++ c8cmd.path :: rest :=
  prefix_stack_push_prepend_pop.2.1 c8cmd [] [] c8w c8rc c8w2 (by decide)

theorem alookup_heapSet_ne (a x : Nat) (d : Dict) (hne : x ≠ a) :
    ∀ cells : List (Nat × Dict),
      alookup a (heapSet cells x d) = alookup a cells := by
  intro cells
  induction cells with
  | nil => rfl
  | cons c rest ih =>
    by_cases hc : c.1 = x
    · have hca : ¬ (x = a) := hne
      have hca' : ¬ (c.1 = a) := by rw [hc]; exact hne
      simp [heapSet, hc, alookup, hca, hca']
    · simp [heapSet, hc, alookup, ih]

theorem foldl_extractStepHeap_cells (ov : Dict) (ca a : Nat) (hne : ca ≠ a) :
    ∀ (l : List (String × PyVal)) (acc : Dict × Heap),
      alookup a ((l.foldl (extractStepHeap ov ca) acc).2).cells
        = alookup a acc.2.cells := by
  intro l
  induction l with
  | nil => intro acc; rfl
  | cons pd rest ih =>
    intro acc
    rw [List.foldl_cons, ih]
    simp only [extractStepHeap]
    cases h1 : alookup ("_" ++ pd.1) (heapLookup acc.2 ca) with
    | some v => exact alookup_heapSet_ne a ca _ (fun he => hne he) acc.2.cells
    | none =>
      cases h2 : alookup pd.1 ov with
      | some v => rfl
      | none => rfl

/-- Claim C10: call-option extraction never mutates the caller's kwargs
object — the first statement copies the dict onto a fresh address and all
deletions hit the copy, so after the call the caller's dict still has
exactly its previous contents, including the extracted option keys. -/
theorem extract_preserves_caller_dict :
    ∀ (a : Nat) (ov : Dict) (h : Heap), a < h.next →
      heapLookup (extractCallArgsHeap a ov h).2 a = heapLookup h a := by
  intro a ov h hlt
  have hne : h.next ≠ a := fun he => absurd (he ▸ hlt) (lt_irrefl a)
  simp only [extractCallArgsHeap, heapAlloc]
  unfold heapLookup
  rw [foldl_extractStepHeap_cells ov h.next a hne]
  simp only [alookup]
  rw [if_neg hne]

/-- Heap used by the C10 witness: the caller's kwargs dict, holding the
recognized key _fg and an unrecognized key x, lives at address 0. -/
def c10heap : Heap :=
  { cells := [(0, [("_fg", .vBool true), ("x", .vInt 3)])], next := 1 }

/-- Witness for the C10 theorem: after extraction the caller's dict at
address 0 still holds both its keys, including the extracted _fg. -/
theorem extract_preserves_caller_dict_witness :
    heapLookup (extractCallArgsHeap 0 [] c10heap).2 0 = heapLookup c10heap 0 :=
  extract_preserves_caller_dict 0 [] c10heap (by decide)
